import Mathlib

/-!
Verification development for the GitHub Critic Streamlit client
(src/ui.py). The Python module is a single-page client around a remote
HTTP API; we shallowly embed its API wrapper functions, its session
state, the sidebar Analyze handler with its inner retry loop, the
steady-state status polling loop, and the rendering fragments for the
File Explorer and Roast Results tabs.

Conventions of the embedding:
* JSON values are modelled by the inductive JsonVal; Python None is
  JsonVal.jnull (so a function "returning None" returns jnull).
* An HTTP attempt is an HttpOutcome: either a transport-level
  exception from the requests library, or a response carrying a status
  code, raw text, and an optional parsed JSON body (none models a body
  that is not valid JSON, so that response.json() raises).
* Python exceptions are PyExc values; isRequestException records
  whether the exception is a requests.exceptions.RequestException.
  Following requests >= 2.27, the JSONDecodeError raised by
  response.json() is a RequestException and carries the flag.
* Each API wrapper returns the updated request log together with
  Except PyExc result; Except.error models an exception escaping the
  function (uncaught by its try/except).
* Wall-clock timestamps are supplied as plain Nat arguments.
-/

/-- A JSON value as produced by response.json(). -/
inductive JsonVal where
  | jnull
  | jbool (b : Bool)
  | jnum (n : Int)
  | jstr (s : String)
  | jarr (elems : List JsonVal)
  | jobj (fields : List (String × JsonVal))

/-- Python truthiness of a JSON value (empty dict/list/string, 0, None
and False are falsy). -/
def JsonVal.truthy : JsonVal → Bool
  | .jnull => false
  | .jbool b => b
  | .jnum n => n != 0
  | .jstr s => s ≠ ""
  | .jarr elems => !elems.isEmpty
  | .jobj fields => !fields.isEmpty

/-- Python equality test of a JSON value against a string literal
(a non-string value never equals a string). -/
def JsonVal.isStr : JsonVal → String → Bool
  | .jstr t, s => t == s
  | _, _ => false

/-- A Python exception. isRequestException is true exactly for
requests.exceptions.RequestException and its subclasses. -/
structure PyExc where
  isRequestException : Bool
  name : String
  msg : String
deriving DecidableEq, Repr

/-- The AttributeError raised by calling .get on a non-dict value. -/
def attrGetErr : PyExc :=
  { isRequestException := false, name := "AttributeError", msg := "object has no attribute get" }

/-- The JSONDecodeError raised by response.json() on an invalid body.
In requests >= 2.27 this is a subclass of RequestException. -/
def jsonDecodeErr : PyExc :=
  { isRequestException := true, name := "JSONDecodeError", msg := "Expecting value" }

/-- Python dict .get(k, d): default when the key is absent, and an
AttributeError when the receiver is not a dict. -/
def JsonVal.pyGetD (v : JsonVal) (k : String) (dflt : JsonVal) : Except PyExc JsonVal :=
  match v with
  | .jobj fields => .ok ((fields.lookup k).getD dflt)
  | _ => .error attrGetErr

/-- Python str() of a JSON value, as used in f-string URLs. Container
values are abbreviated; no claim exercises them. -/
def JsonVal.pyStr : JsonVal → String
  | .jnull => "None"
  | .jbool b => if b then "True" else "False"
  | .jnum n => toString n
  | .jstr s => s
  | .jarr _ => "[...]"
  | .jobj _ => "\x7b...\x7d"

/-- A received HTTP response: status code, raw text, and the parsed
JSON body (none when the body is not valid JSON). -/
structure HttpResp where
  statusCode : Nat
  text : String
  body : Option JsonVal

/-- response.ok of the requests library: status code below 400. -/
def HttpResp.ok (r : HttpResp) : Bool := decide (r.statusCode < 400)

/-- The outcome of one HTTP request: a transport-level exception from
the requests call, or a response. -/
inductive HttpOutcome where
  | exc (msg : String)
  | got (r : HttpResp)

/-- One entry of st.session_state.request_logs (ui.py lines 128-137). -/
structure RequestLogEntry where
  timestamp : Nat
  method : String
  url : String
  payload : Option JsonVal
  status_code : Option Nat
  response : Option JsonVal
  error : Option String
  response_text : Option String

/-- ui.py lines 139-142: append the new entry, then keep only the last
20 entries. -/
def appendLog (logs : List RequestLogEntry) (e : RequestLogEntry) : List RequestLogEntry :=
  let l := logs ++ [e]
  if 20 < l.length then l.drop (l.length - 20) else l

/-- ui.py lines 127-142, log_api_request. Builds the log entry and
appends it with the 20-entry cap. Constructing the entry evaluates
response.json() when the response is ok, so an ok response whose body
is not valid JSON raises (before anything is appended). -/
def log_api_request (logs : List RequestLogEntry) (ts : Nat) (method url : String)
    (payload : Option JsonVal) (response : Option HttpResp) (error : Option String) :
    Except PyExc (List RequestLogEntry) :=
  let respField : Except PyExc (Option JsonVal) :=
    match response with
    | some r =>
      if r.ok then
        match r.body with
        | some j => .ok (some j)
        | none => .error jsonDecodeErr
      else .ok none
    | none => .ok none
  match respField with
  | .error e => .error e
  | .ok rf =>
    .ok (appendLog logs
      { timestamp := ts, method := method, url := url, payload := payload,
        status_code := response.map (fun r => r.statusCode),
        response := rf, error := error,
        response_text := response.map (fun r => r.text) })

def API_BASE_URL : String := "https://github-critic-fastapi.onrender.com/api"

def REPO_STRUCTURE_URL : String := API_BASE_URL ++ "/repositories/structure"

def AUTO_ROAST_URL : String := API_BASE_URL ++ "/repositories/auto-roast"

def DIRECTORY_EXPLORE_URL : String := API_BASE_URL ++ "/repositories/explore"

def DIRECTORY_SIZES_URL : String := API_BASE_URL ++ "/repositories/directory-sizes"

/-- ui.py lines 145-174, analyze_repository. Returns the new request
log plus the value the Python function returns (the job_id field of
the body, or None), or an exception escaping the function. The only
escaping exception is the AttributeError from response_data.get when a
2xx body is valid JSON but not an object; every RequestException is
caught and turned into a logged None return. -/
def analyze_repository (logs : List RequestLogEntry) (ts : Nat) (repoUrl : String)
    (out : HttpOutcome) : List RequestLogEntry × Except PyExc JsonVal :=
  let payload : JsonVal := .jobj [("repo_url", .jstr repoUrl)]
  match out with
  | .exc m =>
    match log_api_request logs ts "POST" REPO_STRUCTURE_URL (some payload) none (some m) with
    | .ok logs1 => (logs1, .ok .jnull)
    | .error e => (logs, .error e)
  | .got r =>
    match log_api_request logs ts "POST" REPO_STRUCTURE_URL (some payload) (some r) none with
    | .error e =>
      if e.isRequestException then
        match log_api_request logs ts "POST" REPO_STRUCTURE_URL (some payload) none (some e.msg) with
        | .ok logs1 => (logs1, .ok .jnull)
        | .error e1 => (logs, .error e1)
      else (logs, .error e)
    | .ok logs1 =>
      if r.ok then
        match r.body with
        | some j =>
          match j.pyGetD "job_id" .jnull with
          | .ok jid => (logs1, .ok jid)
          | .error e =>
            if e.isRequestException then
              match log_api_request logs1 ts "POST" REPO_STRUCTURE_URL (some payload) none (some e.msg) with
              | .ok logs2 => (logs2, .ok .jnull)
              | .error e1 => (logs1, .error e1)
            else (logs1, .error e)
        | none => (logs1, .error jsonDecodeErr)
      else (logs1, .ok .jnull)

/-- The dict check_repo_status synthesizes on a failed check. -/
def failedDict (err : String) : JsonVal :=
  .jobj [("status", .jstr "failed"), ("error", .jstr err)]

/-- ui.py lines 176-195, check_repo_status. On an ok response it
returns the parsed body; on a non-2xx response or any caught
RequestException (transport failure, or JSON decoding of an ok body)
it returns a synthesized dict with status "failed". It never lets an
exception escape. -/
def check_repo_status (logs : List RequestLogEntry) (ts : Nat) (jobIdStr : String)
    (out : HttpOutcome) : List RequestLogEntry × Except PyExc JsonVal :=
  let url := API_BASE_URL ++ "/repositories/structure/" ++ jobIdStr
  match out with
  | .exc m =>
    match log_api_request logs ts "GET" url none none (some m) with
    | .ok logs1 => (logs1, .ok (failedDict m))
    | .error e => (logs, .error e)
  | .got r =>
    match log_api_request logs ts "GET" url none (some r) none with
    | .error e =>
      if e.isRequestException then
        match log_api_request logs ts "GET" url none none (some e.msg) with
        | .ok logs1 => (logs1, .ok (failedDict e.msg))
        | .error e1 => (logs, .error e1)
      else (logs, .error e)
    | .ok logs1 =>
      if r.ok then
        (logs1, .ok (r.body.getD .jnull))
      else
        (logs1, .ok (failedDict (toString r.statusCode ++ ": " ++ r.text)))

/-- ui.py lines 197-222, explore_directory. Returns the parsed body on
an ok response and None otherwise; RequestExceptions are caught and
logged. -/
def explore_directory (logs : List RequestLogEntry) (ts : Nat) (jobId : JsonVal)
    (path : String) (out : HttpOutcome) : List RequestLogEntry × Except PyExc JsonVal :=
  let payload : JsonVal := .jobj [("job_id", jobId), ("path", .jstr path)]
  match out with
  | .exc m =>
    match log_api_request logs ts "POST" DIRECTORY_EXPLORE_URL (some payload) none (some m) with
    | .ok logs1 => (logs1, .ok .jnull)
    | .error e => (logs, .error e)
  | .got r =>
    match log_api_request logs ts "POST" DIRECTORY_EXPLORE_URL (some payload) (some r) none with
    | .error e =>
      if e.isRequestException then
        match log_api_request logs ts "POST" DIRECTORY_EXPLORE_URL (some payload) none (some e.msg) with
        | .ok logs1 => (logs1, .ok .jnull)
        | .error e1 => (logs, .error e1)
      else (logs, .error e)
    | .ok logs1 =>
      if r.ok then (logs1, .ok (r.body.getD .jnull))
      else (logs1, .ok .jnull)

/-- ui.py lines 224-248, get_directory_sizes. Same shape as
explore_directory. -/
def get_directory_sizes (logs : List RequestLogEntry) (ts : Nat) (jobId : JsonVal)
    (path : String) (out : HttpOutcome) : List RequestLogEntry × Except PyExc JsonVal :=
  let payload : JsonVal := .jobj [("job_id", jobId), ("path", .jstr path)]
  match out with
  | .exc m =>
    match log_api_request logs ts "POST" DIRECTORY_SIZES_URL (some payload) none (some m) with
    | .ok logs1 => (logs1, .ok .jnull)
    | .error e => (logs, .error e)
  | .got r =>
    match log_api_request logs ts "POST" DIRECTORY_SIZES_URL (some payload) (some r) none with
    | .error e =>
      if e.isRequestException then
        match log_api_request logs ts "POST" DIRECTORY_SIZES_URL (some payload) none (some e.msg) with
        | .ok logs1 => (logs1, .ok .jnull)
        | .error e1 => (logs, .error e1)
      else (logs, .error e)
    | .ok logs1 =>
      if r.ok then (logs1, .ok (r.body.getD .jnull))
      else (logs1, .ok .jnull)

/-- Arguments of auto_roast_repository (ui.py line 250-251). -/
structure RoastParams where
  style : String
  file_count : Nat
  extensions : Option (List String)
  directories : Option (List String)
  description : Option String
  suggestions : String

/-- Python truthiness of the optional list parameters. -/
def optListTruthy (o : Option (List String)) : Bool :=
  match o with
  | some l => !l.isEmpty
  | none => false

/-- Python truthiness of the optional string parameter. -/
def optStrTruthy (o : Option String) : Bool :=
  match o with
  | some s => s ≠ ""
  | none => false

/-- ui.py lines 254-268: the auto-roast payload, with the optional
fields added only when truthy. -/
def roastPayload (jobId : JsonVal) (p : RoastParams) : JsonVal :=
  .jobj ([("job_id", jobId), ("style", .jstr p.style),
          ("file_count", .jnum (Int.ofNat p.file_count))]
    ++ (if optListTruthy p.extensions then
          [("extensions", .jarr ((p.extensions.getD []).map JsonVal.jstr))] else [])
    ++ (if optListTruthy p.directories then
          [("directories", .jarr ((p.directories.getD []).map JsonVal.jstr))] else [])
    ++ (if optStrTruthy p.description then
          [("description", .jstr (p.description.getD ""))] else [])
    ++ (if p.suggestions ≠ "" then [("suggestions", .jstr p.suggestions)] else []))

/-- ui.py lines 250-291, auto_roast_repository. Returns the parsed
body on an ok response and None otherwise; RequestExceptions are
caught and logged. -/
def auto_roast_repository (logs : List RequestLogEntry) (ts : Nat) (jobId : JsonVal)
    (p : RoastParams) (out : HttpOutcome) : List RequestLogEntry × Except PyExc JsonVal :=
  let payload := roastPayload jobId p
  match out with
  | .exc m =>
    match log_api_request logs ts "POST" AUTO_ROAST_URL (some payload) none (some m) with
    | .ok logs1 => (logs1, .ok .jnull)
    | .error e => (logs, .error e)
  | .got r =>
    match log_api_request logs ts "POST" AUTO_ROAST_URL (some payload) (some r) none with
    | .error e =>
      if e.isRequestException then
        match log_api_request logs ts "POST" AUTO_ROAST_URL (some payload) none (some e.msg) with
        | .ok logs1 => (logs1, .ok .jnull)
        | .error e1 => (logs, .error e1)
      else (logs, .error e)
    | .ok logs1 =>
      if r.ok then (logs1, .ok (r.body.getD .jnull))
      else (logs1, .ok .jnull)

/-- ui.py lines 293-313, check_roast_results. GET variant of the same
shape; returns the parsed body on an ok response and None otherwise. -/
def check_roast_results (logs : List RequestLogEntry) (ts : Nat) (jobIdStr : String)
    (out : HttpOutcome) : List RequestLogEntry × Except PyExc JsonVal :=
  let url := API_BASE_URL ++ "/repositories/auto-roast/" ++ jobIdStr
  match out with
  | .exc m =>
    match log_api_request logs ts "GET" url none none (some m) with
    | .ok logs1 => (logs1, .ok .jnull)
    | .error e => (logs, .error e)
  | .got r =>
    match log_api_request logs ts "GET" url none (some r) none with
    | .error e =>
      if e.isRequestException then
        match log_api_request logs ts "GET" url none none (some e.msg) with
        | .ok logs1 => (logs1, .ok .jnull)
        | .error e1 => (logs, .error e1)
      else (logs, .error e)
    | .ok logs1 =>
      if r.ok then (logs1, .ok (r.body.getD .jnull))
      else (logs1, .ok .jnull)

/-- The session state fields initialized in ui.py lines 104-124 (the
fields the specified core reads or writes; repo_status, roast_status,
roast_results, job_id and directory_contents hold arbitrary Python
values, modelled as JsonVal with jnull for None). -/
structure SessionState where
  job_id : JsonVal
  repo_url : String
  repo_status : JsonVal
  roast_status : JsonVal
  roast_results : JsonVal
  current_path : String
  active_tab : Nat
  directory_contents : JsonVal
  debug_mode : Bool
  request_logs : List RequestLogEntry

/-- The initial session state (ui.py lines 104-124). -/
def initSessionState : SessionState :=
  { job_id := .jnull, repo_url := "", repo_status := .jnull, roast_status := .jnull,
    roast_results := .jnull, current_path := "", active_tab := 0,
    directory_contents := .jnull, debug_mode := false, request_logs := [] }

/-- Observable actions of the sidebar code, in program order: an HTTP
status request issued through check_repo_status, a raw HTTP GET of the
initial retry loop (which bypasses log_api_request), an automatic
explore_directory request, a time.sleep, an st.rerun call, and the
error notice shown before the break on a falsy status response. -/
inductive UIEvent where
  | statusRequest (jobId : JsonVal)
  | httpStatusGet (jobId : JsonVal)
  | exploreRequest (jobId : JsonVal) (path : String)
  | sleepSec (n : Nat)
  | rerunEvent
  | errorBreakMsg

/-- How the polling loop's script run ends: fall through past the
loop, exit the whole script via st.rerun, or an uncaught exception. -/
inductive PollExit where
  | finished
  | rerunExit
  | uncaught (e : PyExc)
deriving DecidableEq, Repr

/-- Result of running the status polling loop: final session state,
final value of polling_count, events in program order, and how the
run ended. -/
structure PollResult where
  state : SessionState
  count : Nat
  events : List UIEvent
  exit : PollExit

/-- Prepend the events of one loop iteration to the result of the rest
of the loop. -/
def prependEvents (evs : List UIEvent) (r : PollResult) : PollResult :=
  { r with events := evs ++ r.events }

/-- ui.py line 383. -/
def max_polling_attempts : Nat := 30

/-- ui.py lines 382-416, the steady-state status polling loop. env i
is the outcome of the i-th status request, expOut the outcome of the
explore_directory call made on a completed status, ts i the wall-clock
time of attempt i. The fuel argument only bounds recursion; the loop
itself stops via its condition (polling_count < 30 and repo_status not
terminal), and pollLoop supplies enough fuel that the fuel-exhausted
branch is never taken. On a truthy response body the loop assigns
repo_status from body.get("status") (an AttributeError when the body
is not a dict propagates, ending the script); on a falsy body it shows
an error and breaks; a completed status triggers one explore_directory
with path "" and st.rerun; a failed status just ends the loop after
the 2-second sleep. -/
def pollGo (env : Nat → HttpOutcome) (expOut : HttpOutcome) (ts : Nat → Nat) :
    Nat → SessionState → Nat → PollResult
  | 0, s, c => ⟨s, c, [], .finished⟩
  | f + 1, s, c =>
    if (s.repo_status.isStr "completed" = false ∧ s.repo_status.isStr "failed" = false)
        ∧ c < max_polling_attempts then
      let c' := c + 1
      let pr := check_repo_status s.request_logs (ts c') s.job_id.pyStr (env c')
      let s1 : SessionState := { s with request_logs := pr.1 }
      match pr.2 with
      | .error e => ⟨s1, c', [.statusRequest s.job_id], .uncaught e⟩
      | .ok sr =>
        if sr.truthy then
          match sr.pyGetD "status" .jnull with
          | .error e => ⟨s1, c', [.statusRequest s.job_id], .uncaught e⟩
          | .ok stv =>
            let s2 : SessionState := { s1 with repo_status := stv }
            if stv.isStr "completed" then
              let er := explore_directory s2.request_logs (ts c') s2.job_id "" expOut
              match er.2 with
              | .ok dv =>
                ⟨{ s2 with request_logs := er.1, directory_contents := dv }, c',
                  [.statusRequest s.job_id, .exploreRequest s2.job_id "", .rerunEvent],
                  .rerunExit⟩
              | .error e =>
                ⟨{ s2 with request_logs := er.1 }, c',
                  [.statusRequest s.job_id, .exploreRequest s2.job_id ""], .uncaught e⟩
            else
              prependEvents [.statusRequest s.job_id, .sleepSec 2]
                (pollGo env expOut ts f s2 c')
        else
          ⟨s1, c', [.statusRequest s.job_id, .errorBreakMsg], .finished⟩
    else ⟨s, c, [], .finished⟩

/-- The polling loop as entered at ui.py line 382: polling_count
starts at 0; 31 units of fuel dominate the 30-attempt ceiling. -/
def pollLoop (env : Nat → HttpOutcome) (expOut : HttpOutcome) (ts : Nat → Nat)
    (s : SessionState) : PollResult :=
  pollGo env expOut ts (max_polling_attempts + 1) s 0

/-- ui.py lines 419-423: after the loop, a warning plus a manual
"Retry Status Check" button (whose press reruns the script) is shown
exactly when the attempt ceiling was reached and the status is not
completed. -/
def postLoopRetryOffered (r : PollResult) : Bool :=
  decide (max_polling_attempts ≤ r.count) && !(r.state.repo_status.isStr "completed")

/-- Result of the inner initial-status retry loop: final state, final
retry_count, events, the success flag, and whether st.rerun ended the
script run. -/
structure InitResult where
  state : SessionState
  retries : Nat
  events : List UIEvent
  success : Bool
  reran : Bool

/-- Prepend one retry iteration's events. -/
def prependInitEvents (evs : List UIEvent) (r : InitResult) : InitResult :=
  { r with events := evs ++ r.events }

/-- ui.py line 340. -/
def max_retries : Nat := 4

/-- ui.py lines 343-366, the initial status retry loop run directly
after submission. It issues raw requests.get calls (never calling
log_api_request), catches every exception with except Exception, and
backs off 2 ^ retry_count seconds after a failed attempt. On the first
ok JSON-object response it stores body.get("status", "pending"),
fetches the root directory via explore_directory, and calls st.rerun
(which ends the script and is not caught by except Exception). An ok
response whose body is not valid JSON, or is not a dict, raises inside
the try and is absorbed like any other failure. -/
def initialRetryGo (env : Nat → HttpOutcome) (expOut : HttpOutcome) (ts : Nat → Nat) :
    Nat → SessionState → Nat → InitResult
  | 0, s, rc => ⟨s, rc, [], false, false⟩
  | f + 1, s, rc =>
    if rc < max_retries then
      let rc' := rc + 1
      match env rc' with
      | .exc _ =>
        prependInitEvents [.httpStatusGet s.job_id, .sleepSec (2 ^ rc')]
          (initialRetryGo env expOut ts f s rc')
      | .got r =>
        if r.ok then
          match r.body with
          | some (.jobj fields) =>
            let stv := (fields.lookup "status").getD (.jstr "pending")
            let s2 : SessionState := { s with repo_status := stv }
            let er := explore_directory s2.request_logs (ts rc') s2.job_id "" expOut
            let dv := match er.2 with | .ok v => v | .error _ => .jnull
            ⟨{ s2 with request_logs := er.1, directory_contents := dv }, rc',
              [.httpStatusGet s.job_id, .exploreRequest s2.job_id "", .rerunEvent],
              true, true⟩
          | _ =>
            prependInitEvents [.httpStatusGet s.job_id, .sleepSec (2 ^ rc')]
              (initialRetryGo env expOut ts f s rc')
        else
          prependInitEvents [.httpStatusGet s.job_id, .sleepSec (2 ^ rc')]
            (initialRetryGo env expOut ts f s rc')
    else ⟨s, rc, [], false, false⟩

/-- How the Analyze Repository handler ends. -/
inductive HandlerExit where
  | reran
  | retriesExhausted
  | startFailed
  | emptyUrl
  | uncaught (e : PyExc)
deriving DecidableEq, Repr

/-- ui.py lines 321-373, the Analyze Repository button handler. Sets
repo_url, calls analyze_repository; on a truthy job id it stores the
job id, sets repo_status to "pending", sleeps 8 seconds and runs the
initial retry loop. It never writes roast_status, roast_results, or
(except through a successful initial status check) directory_contents. -/
def analyzeHandler (repoUrl : String) (startOut : HttpOutcome)
    (initEnv : Nat → HttpOutcome) (expOut : HttpOutcome) (ts : Nat → Nat)
    (s : SessionState) : SessionState × List UIEvent × HandlerExit :=
  if repoUrl ≠ "" then
    let s0 : SessionState := { s with repo_url := repoUrl }
    let ar := analyze_repository s0.request_logs (ts 0) repoUrl startOut
    let s1 : SessionState := { s0 with request_logs := ar.1 }
    match ar.2 with
    | .error e => (s1, [], .uncaught e)
    | .ok jid =>
      if jid.truthy then
        let s2 : SessionState := { s1 with job_id := jid, repo_status := .jstr "pending" }
        let r := initialRetryGo initEnv expOut ts (max_retries + 1) s2 0
        (r.state, .sleepSec 8 :: r.events,
          if r.reran then .reran else .retriesExhausted)
      else (s1, [], .startFailed)
  else (s, [], .emptyUrl)

/-- An in-flight status response attributed to the job that issued it.
The attribution exists only in this model: the code itself (ui.py
lines 393-396) carries no job tag on a response. -/
structure InFlightStatusResponse where
  forJob : JsonVal
  body : JsonVal

/-- ui.py lines 395-396: how a status response mutates the session
state. The body's status field is assigned to repo_status
unconditionally; nothing compares the response's job to the store's
current job. (On a falsy body the loop breaks with the state
unchanged; .get on a non-dict raises.) -/
def processStatusResponse (s : SessionState) (r : InFlightStatusResponse) :
    Except PyExc SessionState :=
  if r.body.truthy then
    match r.body.pyGetD "status" .jnull with
    | .ok stv => .ok { s with repo_status := stv }
    | .error e => .error e
  else .ok s

/-- One rendered critique block of the Roast Results tab. -/
structure RoastRendered where
  path : JsonVal
  critique : JsonVal
  suggestions : Option JsonVal

/-- ui.py lines 708-730, the file-critique loop of the Roast Results
tab: entries with fewer than 2 elements are skipped and the loop
continues; the third element, when present, is rendered as the
suggestions block. -/
def renderRoastFiles : List (List JsonVal) → List RoastRendered
  | [] => []
  | e :: rest =>
    if 2 ≤ e.length then
      { path := e.getD 0 .jnull, critique := e.getD 1 .jnull,
        suggestions := if 3 ≤ e.length then some (e.getD 2 .jnull) else none }
        :: renderRoastFiles rest
    else renderRoastFiles rest

/-- A file record of a DirectorySnapshot as read by the File Explorer
tab (ui.py lines 667-679): file.get("extension", "") with the
extension field either absent or a string, and file.get("size", 0)
a number. -/
structure FileEntry where
  name : String
  extension : Option String
  size : Nat
deriving DecidableEq

/-- Python str.lower(), character by character (the extensions in a
DirectorySnapshot are ASCII, where Char.toLower agrees with Python). -/
def pyLower (s : String) : String := String.mk (s.data.map Char.toLower)

/-- ui.py line 668: ext = file.get("extension", "").lower() or
"other". -/
def fileExtKey (f : FileEntry) : String :=
  let e := pyLower (f.extension.getD "")
  if e = "" then "other" else e

/-- Appending a file to its extension bucket, creating the bucket at
the end on first encounter — the behavior of the insertion-ordered
Python dict in ui.py lines 666-671. -/
def groupInsert (m : List (String × List FileEntry)) (k : String) (f : FileEntry) :
    List (String × List FileEntry) :=
  match m with
  | [] => [(k, [f])]
  | (k1, fs) :: rest =>
    if k1 = k then (k1, fs ++ [f]) :: rest else (k1, fs) :: groupInsert rest k f

/-- ui.py lines 666-671: files_by_ext built over the files list. -/
def groupFilesByExt (files : List FileEntry) : List (String × List FileEntry) :=
  files.foldl (fun m f => groupInsert m (fileExtKey f) f) []

/-- The tenths-of-KB value printed by the Python format spec .1f for
size/1024: size*10/1024 rounded to the nearest integer, ties to even
(size/1024 is exactly representable in binary floating point for all
realistic sizes, and Python's fixed-point formatting rounds the exact
value half to even). -/
def kbTenths (n : Nat) : Nat :=
  let t := n * 10
  let q := t / 1024
  let r := t % 1024
  if 512 < r then q + 1 else if r < 512 then q else if q % 2 = 0 then q else q + 1

/-- ui.py line 679: size_str = f-string KB with one decimal when size
is at least 1024, and "<n> bytes" otherwise. -/
def size_str (n : Nat) : String :=
  if 1024 ≤ n then
    toString (kbTenths n / 10) ++ "." ++ toString (kbTenths n % 10) ++ " KB"
  else toString n ++ " bytes"

/-- Entry used by the witness below. -/
def wLogEntry (i : Nat) : RequestLogEntry :=
  { timestamp := i, method := "GET", url := "u", payload := none, status_code := none,
    response := none, error := none, response_text := none }

/-- Specification-side closed form for "groups ordered by
first-encountered extension": the keys of the file list, first
occurrence kept, occurrences of keys already seen dropped. -/
def firstDedupFrom (seen : List String) : List String → List String
  | [] => []
  | k :: ks =>
    if k ∈ seen then firstDedupFrom seen ks else k :: firstDedupFrom (k :: seen) ks

/-- The bucket stored for a key ([] when the key is absent). -/
def lookupGroup (m : List (String × List FileEntry)) (k : String) : List FileEntry :=
  (m.lookup k).getD []

/-- Whether an Except result is a normal return (no escaping
exception). -/
def exceptIsOk (x : Except PyExc JsonVal) : Bool :=
  match x with
  | .ok _ => true
  | .error _ => false

/-- The outcomes on which analyze_repository cannot hit the
response_data.get AttributeError: any 2xx body, when valid JSON, is a
JSON object. -/
def analyzeOutSafe (out : HttpOutcome) : Prop :=
  ∀ r j, out = HttpOutcome.got r → r.ok = true → r.body = some j →
    ∃ fields, j = JsonVal.jobj fields

/-- Recognizer for the raw status GET events of the initial retry
loop. -/
def isHttpGetEvt : UIEvent → Bool := fun e =>
  match e with
  | .httpStatusGet _ => true
  | _ => false

/-- Recognizer for explore_directory request events. -/
def isExploreEvt : UIEvent → Bool := fun e =>
  match e with
  | .exploreRequest _ _ => true
  | _ => false

/-- Whether one attempt of the initial retry loop takes its success
path: an ok response whose body parses to a JSON object. -/
def initAttemptSucceeds (o : HttpOutcome) : Bool :=
  match o with
  | .exc _ => false
  | .got r => r.ok && (match r.body with | some (.jobj _) => true | _ => false)

/-- An environment whose every status check returns 503 with a
non-JSON body. -/
def cFailEnv : Nat → HttpOutcome :=
  fun _ => .got { statusCode := 503, text := "unavailable", body := none }

/-- The events of k consecutive pending iterations of the polling
loop: one status request followed by one 2-second sleep, per
iteration. -/
def pendEvts (jid : JsonVal) : Nat → List UIEvent
  | 0 => []
  | k + 1 => .statusRequest jid :: .sleepSec 2 :: pendEvts jid k

/-- The i-th status request obtained a 2xx response whose JSON-object
body carries the given status value. -/
def statusOutcomeIs (o : HttpOutcome) (v : String) : Prop :=
  ∃ r fields, o = HttpOutcome.got r ∧ r.ok = true
    ∧ r.body = some (JsonVal.jobj fields)
    ∧ fields.lookup "status" = some (JsonVal.jstr v)

/-- Status response used by the concrete scenarios: 200 with body
a JSON object whose status is "pending". -/
def pendingOutcome : HttpOutcome :=
  .got { statusCode := 200, text := "ok",
         body := some (.jobj [("status", .jstr "pending")]) }

/-- Status response with status "completed". -/
def completedOutcome : HttpOutcome :=
  .got { statusCode := 200, text := "ok",
         body := some (.jobj [("status", .jstr "completed")]) }

/-- A session that has entered polling: job id set, status pending. -/
def cPendState : SessionState :=
  { initSessionState with job_id := .jstr "job-1", repo_status := .jstr "pending" }

/-- An environment where every status request fails at transport
level. -/
def cExcEnv : Nat → HttpOutcome := fun _ => HttpOutcome.exc "timeout"

/-- Two pending responses followed by a completed response. -/
def cCompEnv : Nat → HttpOutcome :=
  fun i => if i < 3 then pendingOutcome else completedOutcome

/-- Session state of a store whose current job is B while a response
for job A is still in flight. -/
def c5State : SessionState :=
  { initSessionState with job_id := .jstr "B", repo_status := .jstr "pending" }

/-- A completed-status response belonging to job A. -/
def c5Resp : InFlightStatusResponse :=
  { forJob := .jstr "A", body := .jobj [("status", .jstr "completed")] }

/-- A prior session that has a completed job A with displayed roast
results and a directory snapshot. -/
def c4Prior : SessionState :=
  { initSessionState with
    job_id := .jstr "A", repo_status := .jstr "completed",
    roast_status := .jstr "completed",
    roast_results := .jobj [("summary", .jstr "old roast")],
    directory_contents := .jobj [("files", .jarr [])] }

/-- The start-analysis response creating job B. -/
def c4StartOut : HttpOutcome :=
  .got { statusCode := 200, text := "ok",
         body := some (.jobj [("job_id", .jstr "B")]) }

lemma appendLog_length_le (logs : List RequestLogEntry) (e : RequestLogEntry) :
    (appendLog logs e).length ≤ 20 := by
  simp only [appendLog]
  split
  · simp only [List.length_drop]
    omega
  · simp only [List.length_append, List.length_singleton] at *
    omega

lemma foldl_appendLog_no_trunc :
    ∀ (xs : List RequestLogEntry) (acc : List RequestLogEntry),
      acc.length + xs.length ≤ 20 → List.foldl appendLog acc xs = acc ++ xs
  | [], acc, _ => by simp
  | x :: xs, acc, h => by
    have hx : appendLog acc x = acc ++ [x] := by
      unfold appendLog
      rw [if_neg]
      simp only [List.length_append, List.length_singleton]
      simp at h
      omega
    simp only [List.foldl_cons, hx]
    rw [foldl_appendLog_no_trunc xs (acc ++ [x]) (by simp at h ⊢; omega)]
    simp

/-- C6. The request log kept by log_api_request never holds more than
20 entries, and eviction is FIFO: starting from the empty log, after
appending 21 entries the first (oldest) entry is gone and exactly the
last 20 remain in append order; when timestamps are increasing the
evicted entry is the one with the smallest timestamp, and it is no
longer present. -/
theorem c6_request_log_capacity_fifo :
    (∀ (logs : List RequestLogEntry) (e : RequestLogEntry), (appendLog logs e).length ≤ 20)
    ∧ (∀ (e0 : RequestLogEntry) (rest : List RequestLogEntry), rest.length = 20 →
        (List.foldl appendLog [] (e0 :: rest) = rest
          ∧ ((∀ x ∈ rest, e0.timestamp < x.timestamp) → e0 ∉ rest))) := by
  refine ⟨appendLog_length_le, ?_⟩
  intro e0 rest hlen
  have hne : rest ≠ [] := by
    intro h
    rw [h] at hlen
    simp at hlen
  constructor
  · have hsplit : rest.dropLast ++ [rest.getLast hne] = rest :=
      List.dropLast_append_getLast hne
    have hdl : rest.dropLast.length = 19 := by
      rw [List.length_dropLast, hlen]
    have h1 : appendLog [] e0 = [e0] := by
      unfold appendLog
      simp
    calc List.foldl appendLog [] (e0 :: rest)
        = List.foldl appendLog [e0] rest := by
          simp only [List.foldl_cons, h1]
      _ = List.foldl appendLog [e0] (rest.dropLast ++ [rest.getLast hne]) := by
          rw [hsplit]
      _ = appendLog (List.foldl appendLog [e0] rest.dropLast) (rest.getLast hne) := by
          rw [List.foldl_append]
          simp
      _ = appendLog (e0 :: rest.dropLast) (rest.getLast hne) := by
          rw [foldl_appendLog_no_trunc rest.dropLast [e0] (by simp [hdl])]
          simp
      _ = rest := by
          unfold appendLog
          rw [if_pos]
          · simp only [List.length_append, List.length_cons, hdl]
            norm_num
            calc (e0 :: rest.dropLast ++ [rest.getLast hne]).drop 1
                = rest.dropLast ++ [rest.getLast hne] := by simp
              _ = rest := hsplit
          · simp [hdl]
  · intro hts hmem
    exact absurd (hts e0 hmem) (lt_irrefl _)

theorem c6_request_log_capacity_fifo_witness :
    List.foldl appendLog [] (wLogEntry 0 :: (List.range 20).map (fun i => wLogEntry (i + 1)))
        = (List.range 20).map (fun i => wLogEntry (i + 1))
      ∧ wLogEntry 0 ∉ (List.range 20).map (fun i => wLogEntry (i + 1)) := by
  have h := (c6_request_log_capacity_fifo.2 (wLogEntry 0)
    ((List.range 20).map (fun i => wLogEntry (i + 1))) (by simp))
  refine ⟨h.1, h.2 ?_⟩
  intro x hx
  simp only [List.mem_map, List.mem_range] at hx
  obtain ⟨i, _, hi⟩ := hx
  rw [← hi]
  simp [wLogEntry]

/-- C9. Rendering the roasted-files list: an entry with fewer than 2
elements is skipped while the rest of the list still renders; an entry
with exactly 2 elements renders path and critique with no suggestions
block; an entry with 3 or more elements additionally renders its third
element as suggestions; the server-provided order is preserved. -/
theorem c9_roast_entries_rendering :
    ∀ (e : List JsonVal) (rest : List (List JsonVal)),
      (e.length < 2 → renderRoastFiles (e :: rest) = renderRoastFiles rest)
      ∧ (e.length = 2 → renderRoastFiles (e :: rest) =
          { path := e.getD 0 .jnull, critique := e.getD 1 .jnull, suggestions := none }
            :: renderRoastFiles rest)
      ∧ (3 ≤ e.length → renderRoastFiles (e :: rest) =
          { path := e.getD 0 .jnull, critique := e.getD 1 .jnull,
            suggestions := some (e.getD 2 .jnull) } :: renderRoastFiles rest) := by
  intro e rest
  refine ⟨?_, ?_, ?_⟩
  · intro h
    simp only [renderRoastFiles]
    rw [if_neg (by omega)]
  · intro h
    simp only [renderRoastFiles]
    rw [if_pos (by omega), if_neg (by omega)]
  · intro h
    simp only [renderRoastFiles]
    rw [if_pos (by omega), if_pos h]

theorem c9_roast_entries_rendering_witness :
    renderRoastFiles [[JsonVal.jstr "main.py", JsonVal.jstr "bad code"]]
        = [{ path := JsonVal.jstr "main.py", critique := JsonVal.jstr "bad code",
             suggestions := none }]
      ∧ renderRoastFiles [[JsonVal.jstr "x.py"]] = [] :=
  ⟨(c9_roast_entries_rendering [JsonVal.jstr "main.py", JsonVal.jstr "bad code"] []).2.1 rfl,
   (c9_roast_entries_rendering [JsonVal.jstr "x.py"] []).1 (by simp)⟩

lemma groupInsert_keys (m : List (String × List FileEntry)) (k : String) (f : FileEntry) :
    (groupInsert m k f).map Prod.fst =
      if k ∈ m.map Prod.fst then m.map Prod.fst else m.map Prod.fst ++ [k] := by
  induction m with
  | nil => simp [groupInsert]
  | cons p rest ih =>
    obtain ⟨k1, fs⟩ := p
    by_cases hk : k1 = k
    · subst hk
      simp [groupInsert]
    · simp only [groupInsert, if_neg hk, List.map_cons, ih, List.mem_cons]
      by_cases hmem : k ∈ rest.map Prod.fst
      · rw [if_pos hmem, if_pos (Or.inr hmem)]
      · rw [if_neg hmem, if_neg (by simp [hmem, Ne.symm hk])]
        simp

lemma lookupGroup_nil (k : String) : lookupGroup [] k = [] := rfl

lemma lookupGroup_cons (k1 k2 : String) (fs : List FileEntry)
    (rest : List (String × List FileEntry)) :
    lookupGroup ((k2, fs) :: rest) k1 = if k1 = k2 then fs else lookupGroup rest k1 := by
  simp only [lookupGroup, List.lookup]
  by_cases h : k1 = k2
  · simp [h]
  · simp [h, beq_eq_false_iff_ne.mpr h]

lemma groupInsert_lookup (m : List (String × List FileEntry)) (k k1 : String) (f : FileEntry) :
    lookupGroup (groupInsert m k f) k1 =
      if k1 = k then lookupGroup m k ++ [f] else lookupGroup m k1 := by
  induction m with
  | nil =>
    simp only [groupInsert]
    rw [lookupGroup_cons]
    split_ifs <;> simp [lookupGroup_nil]
  | cons p rest ih =>
    obtain ⟨k2, fs⟩ := p
    simp only [groupInsert]
    by_cases hk : k2 = k
    · subst hk
      rw [if_pos rfl, lookupGroup_cons, lookupGroup_cons, lookupGroup_cons]
      split_ifs <;> simp_all
    · have hk2 : ¬ k = k2 := fun hh => hk hh.symm
      rw [if_neg hk, lookupGroup_cons, ih, lookupGroup_cons, lookupGroup_cons]
      split_ifs <;> simp_all

lemma groupFold_lookup (files : List FileEntry) :
    ∀ (m : List (String × List FileEntry)) (k : String),
      lookupGroup (files.foldl (fun m f => groupInsert m (fileExtKey f) f) m) k =
        lookupGroup m k ++ files.filter (fun f => fileExtKey f == k) := by
  induction files with
  | nil => intro m k; simp
  | cons f fs ih =>
    intro m k
    simp only [List.foldl_cons, List.filter_cons]
    rw [ih]
    by_cases h : fileExtKey f = k
    · rw [groupInsert_lookup, if_pos h.symm]
      simp [h, List.append_assoc]
    · rw [groupInsert_lookup, if_neg (fun hh => h hh.symm)]
      simp [h]

lemma firstDedupFrom_congr (l : List String) :
    ∀ (s1 s2 : List String), (∀ x, x ∈ s1 ↔ x ∈ s2) →
      firstDedupFrom s1 l = firstDedupFrom s2 l := by
  induction l with
  | nil => intro s1 s2 _; rfl
  | cons k ks ih =>
    intro s1 s2 hiff
    simp only [firstDedupFrom]
    by_cases h : k ∈ s1
    · rw [if_pos h, if_pos ((hiff k).1 h)]
      exact ih s1 s2 hiff
    · rw [if_neg h, if_neg (fun hh => h ((hiff k).2 hh))]
      refine congrArg _ (ih _ _ ?_)
      intro x
      simp only [List.mem_cons]
      exact or_congr Iff.rfl (hiff x)

lemma groupFold_keys (files : List FileEntry) :
    ∀ (m : List (String × List FileEntry)),
      (files.foldl (fun m f => groupInsert m (fileExtKey f) f) m).map Prod.fst =
        m.map Prod.fst ++ firstDedupFrom (m.map Prod.fst) (files.map fileExtKey) := by
  induction files with
  | nil => intro m; simp [firstDedupFrom]
  | cons f fs ih =>
    intro m
    simp only [List.foldl_cons, List.map_cons, firstDedupFrom]
    rw [ih]
    by_cases h : fileExtKey f ∈ m.map Prod.fst
    · rw [groupInsert_keys, if_pos h, if_pos h]
    · rw [groupInsert_keys, if_neg h, if_neg h]
      rw [firstDedupFrom_congr (fs.map fileExtKey)
        ((m.map Prod.fst) ++ [fileExtKey f]) (fileExtKey f :: m.map Prod.fst)
        (by intro x; simp [or_comm])]
      simp

/-- C10. The File Explorer groups files by lowercased extension with
the sentinel "other" bucket for files whose extension is empty or
absent, groups appearing in first-encountered order and each bucket
holding exactly its files in list order; a size below 1024 renders as
"<n> bytes" and otherwise as kilobytes with one decimal place, so 500
and 2048 render as "500 bytes" and "2.0 KB". -/
theorem c10_explorer_grouping_and_sizes :
    (∀ files : List FileEntry,
        (groupFilesByExt files).map Prod.fst = firstDedupFrom [] (files.map fileExtKey))
    ∧ (∀ (files : List FileEntry) (k : String),
        lookupGroup (groupFilesByExt files) k = files.filter (fun f => fileExtKey f == k))
    ∧ (∀ f : FileEntry, (f.extension = none ∨ f.extension = some "") → fileExtKey f = "other")
    ∧ (∀ (f : FileEntry) (e : String), f.extension = some e → pyLower e ≠ "" →
        fileExtKey f = pyLower e)
    ∧ (∀ n : Nat, n < 1024 → size_str n = toString n ++ " bytes")
    ∧ (∀ n : Nat, 1024 ≤ n → size_str n =
        toString (kbTenths n / 10) ++ "." ++ toString (kbTenths n % 10) ++ " KB")
    ∧ size_str 500 = "500 bytes" ∧ size_str 2048 = "2.0 KB" := by
  refine ⟨?_, ?_, ?_, ?_, ?_, ?_, ?_, ?_⟩
  · intro files
    have h := groupFold_keys files []
    simpa [groupFilesByExt] using h
  · intro files k
    have h := groupFold_lookup files [] k
    simpa [groupFilesByExt, lookupGroup] using h
  · intro f h
    have h0 : pyLower "" = "" := by decide
    rcases h with h | h <;> simp [fileExtKey, h, h0]
  · intro f e he hne
    simp [fileExtKey, he, hne]
  · intro n h
    simp [size_str, Nat.not_le.mpr h]
  · intro n h
    simp [size_str, h]
  · rfl
  · rfl

theorem c10_explorer_grouping_and_sizes_witness :
    lookupGroup (groupFilesByExt
        [{ name := "a.py", extension := some ".py", size := 500 },
         { name := "b.py", extension := some ".py", size := 2048 }]) ".py" =
      [{ name := "a.py", extension := some ".py", size := 500 },
       { name := "b.py", extension := some ".py", size := 2048 }]
    ∧ fileExtKey { name := "c", extension := none, size := 0 } = "other"
    ∧ size_str 500 = toString 500 ++ " bytes" ∧ size_str 2048 = "2.0 KB" := by
  refine ⟨?_, ?_, ?_, ?_⟩
  · have h := c10_explorer_grouping_and_sizes.2.1
      [{ name := "a.py", extension := some ".py", size := 500 },
       { name := "b.py", extension := some ".py", size := 2048 }] ".py"
    rw [h]
    decide
  · exact c10_explorer_grouping_and_sizes.2.2.1 _ (Or.inl rfl)
  · exact c10_explorer_grouping_and_sizes.2.2.2.2.1 500 (by norm_num)
  · exact c10_explorer_grouping_and_sizes.2.2.2.2.2.2.2

lemma analyze_repository_spec (logs : List RequestLogEntry) (ts : Nat) (repoUrl : String)
    (out : HttpOutcome) :
    (∃ e, (analyze_repository logs ts repoUrl out).1 = appendLog logs e)
    ∧ (analyzeOutSafe out → exceptIsOk (analyze_repository logs ts repoUrl out).2 = true) := by
  cases out with
  | exc m =>
    constructor
    · simp only [analyze_repository, log_api_request]
      exact ⟨_, rfl⟩
    · intro _
      simp [analyze_repository, log_api_request, exceptIsOk]
  | got r =>
    by_cases hok : r.ok = true
    · cases hb : r.body with
      | some j =>
        cases j with
        | jobj fields =>
          constructor
          · simp only [analyze_repository, log_api_request, hok, hb, JsonVal.pyGetD,
              if_true, Bool.true_eq]
            simp
          · intro _
            simp [analyze_repository, log_api_request, hok, hb, exceptIsOk, JsonVal.pyGetD]
        | jnull =>
          constructor
          · simp only [analyze_repository, log_api_request, hok, hb, JsonVal.pyGetD]
            simp [attrGetErr]
          · intro hsafe
            exact absurd (hsafe r _ rfl hok hb) (by simp)
        | jbool b =>
          constructor
          · simp only [analyze_repository, log_api_request, hok, hb, JsonVal.pyGetD]
            simp [attrGetErr]
          · intro hsafe
            exact absurd (hsafe r _ rfl hok hb) (by simp)
        | jnum n =>
          constructor
          · simp only [analyze_repository, log_api_request, hok, hb, JsonVal.pyGetD]
            simp [attrGetErr]
          · intro hsafe
            exact absurd (hsafe r _ rfl hok hb) (by simp)
        | jstr s =>
          constructor
          · simp only [analyze_repository, log_api_request, hok, hb, JsonVal.pyGetD]
            simp [attrGetErr]
          · intro hsafe
            exact absurd (hsafe r _ rfl hok hb) (by simp)
        | jarr elems =>
          constructor
          · simp only [analyze_repository, log_api_request, hok, hb, JsonVal.pyGetD]
            simp [attrGetErr]
          · intro hsafe
            exact absurd (hsafe r _ rfl hok hb) (by simp)
      | none =>
        constructor
        · simp only [analyze_repository, log_api_request, hok, hb]
          simp [jsonDecodeErr]
        · intro _
          simp [analyze_repository, log_api_request, hok, hb, exceptIsOk, jsonDecodeErr]
    · have hok2 : r.ok = false := by simpa using hok
      constructor
      · simp only [analyze_repository, log_api_request, hok2]
        simp
      · intro _
        simp [analyze_repository, log_api_request, hok2, exceptIsOk]

lemma check_repo_status_spec (logs : List RequestLogEntry) (ts : Nat) (jobIdStr : String)
    (out : HttpOutcome) :
    (∃ e, (check_repo_status logs ts jobIdStr out).1 = appendLog logs e)
    ∧ exceptIsOk (check_repo_status logs ts jobIdStr out).2 = true := by
  cases out with
  | exc m =>
    constructor
    · simp only [check_repo_status, log_api_request]
      exact ⟨_, rfl⟩
    · simp [check_repo_status, log_api_request, exceptIsOk]
  | got r =>
    by_cases hok : r.ok = true
    · cases hb : r.body with
      | some j =>
        constructor
        · simp [check_repo_status, log_api_request, hok, hb]
        · simp [check_repo_status, log_api_request, hok, hb, exceptIsOk]
      | none =>
        constructor
        · simp [check_repo_status, log_api_request, hok, hb, jsonDecodeErr]
        · simp [check_repo_status, log_api_request, hok, hb, jsonDecodeErr, exceptIsOk]
    · have hok2 : r.ok = false := by simpa using hok
      constructor
      · simp [check_repo_status, log_api_request, hok2]
      · simp [check_repo_status, log_api_request, hok2, exceptIsOk]

lemma explore_directory_spec (logs : List RequestLogEntry) (ts : Nat) (jid : JsonVal) (path : String)
    (out : HttpOutcome) :
    (∃ e, (explore_directory logs ts jid path out).1 = appendLog logs e)
    ∧ exceptIsOk (explore_directory logs ts jid path out).2 = true := by
  cases out with
  | exc m =>
    constructor
    · simp only [explore_directory, log_api_request]
      exact ⟨_, rfl⟩
    · simp [explore_directory, log_api_request, exceptIsOk]
  | got r =>
    by_cases hok : r.ok = true
    · cases hb : r.body with
      | some j =>
        constructor
        · simp [explore_directory, log_api_request, hok, hb]
        · simp [explore_directory, log_api_request, hok, hb, exceptIsOk]
      | none =>
        constructor
        · simp [explore_directory, log_api_request, hok, hb, jsonDecodeErr]
        · simp [explore_directory, log_api_request, hok, hb, jsonDecodeErr, exceptIsOk]
    · have hok2 : r.ok = false := by simpa using hok
      constructor
      · simp [explore_directory, log_api_request, hok2]
      · simp [explore_directory, log_api_request, hok2, exceptIsOk]

lemma get_directory_sizes_spec (logs : List RequestLogEntry) (ts : Nat) (jid : JsonVal) (path : String)
    (out : HttpOutcome) :
    (∃ e, (get_directory_sizes logs ts jid path out).1 = appendLog logs e)
    ∧ exceptIsOk (get_directory_sizes logs ts jid path out).2 = true := by
  cases out with
  | exc m =>
    constructor
    · simp only [get_directory_sizes, log_api_request]
      exact ⟨_, rfl⟩
    · simp [get_directory_sizes, log_api_request, exceptIsOk]
  | got r =>
    by_cases hok : r.ok = true
    · cases hb : r.body with
      | some j =>
        constructor
        · simp [get_directory_sizes, log_api_request, hok, hb]
        · simp [get_directory_sizes, log_api_request, hok, hb, exceptIsOk]
      | none =>
        constructor
        · simp [get_directory_sizes, log_api_request, hok, hb, jsonDecodeErr]
        · simp [get_directory_sizes, log_api_request, hok, hb, jsonDecodeErr, exceptIsOk]
    · have hok2 : r.ok = false := by simpa using hok
      constructor
      · simp [get_directory_sizes, log_api_request, hok2]
      · simp [get_directory_sizes, log_api_request, hok2, exceptIsOk]

lemma auto_roast_repository_spec (logs : List RequestLogEntry) (ts : Nat) (jid : JsonVal) (p : RoastParams)
    (out : HttpOutcome) :
    (∃ e, (auto_roast_repository logs ts jid p out).1 = appendLog logs e)
    ∧ exceptIsOk (auto_roast_repository logs ts jid p out).2 = true := by
  cases out with
  | exc m =>
    constructor
    · simp only [auto_roast_repository, log_api_request]
      exact ⟨_, rfl⟩
    · simp [auto_roast_repository, log_api_request, exceptIsOk]
  | got r =>
    by_cases hok : r.ok = true
    · cases hb : r.body with
      | some j =>
        constructor
        · simp [auto_roast_repository, log_api_request, hok, hb]
        · simp [auto_roast_repository, log_api_request, hok, hb, exceptIsOk]
      | none =>
        constructor
        · simp [auto_roast_repository, log_api_request, hok, hb, jsonDecodeErr]
        · simp [auto_roast_repository, log_api_request, hok, hb, jsonDecodeErr, exceptIsOk]
    · have hok2 : r.ok = false := by simpa using hok
      constructor
      · simp [auto_roast_repository, log_api_request, hok2]
      · simp [auto_roast_repository, log_api_request, hok2, exceptIsOk]

lemma check_roast_results_spec (logs : List RequestLogEntry) (ts : Nat) (jobIdStr : String)
    (out : HttpOutcome) :
    (∃ e, (check_roast_results logs ts jobIdStr out).1 = appendLog logs e)
    ∧ exceptIsOk (check_roast_results logs ts jobIdStr out).2 = true := by
  cases out with
  | exc m =>
    constructor
    · simp only [check_roast_results, log_api_request]
      exact ⟨_, rfl⟩
    · simp [check_roast_results, log_api_request, exceptIsOk]
  | got r =>
    by_cases hok : r.ok = true
    · cases hb : r.body with
      | some j =>
        constructor
        · simp [check_roast_results, log_api_request, hok, hb]
        · simp [check_roast_results, log_api_request, hok, hb, exceptIsOk]
      | none =>
        constructor
        · simp [check_roast_results, log_api_request, hok, hb, jsonDecodeErr]
        · simp [check_roast_results, log_api_request, hok, hb, jsonDecodeErr, exceptIsOk]
    · have hok2 : r.ok = false := by simpa using hok
      constructor
      · simp [check_roast_results, log_api_request, hok2]
      · simp [check_roast_results, log_api_request, hok2, exceptIsOk]

/-- C8 counterexample: a 2xx response whose body is the valid JSON
array [1] makes analyze_repository raise an uncaught AttributeError
(response_data.get on a list), instead of returning a tagged result. -/
theorem c8_counterexample_analyze_uncaught :
    (analyze_repository [] 0 "u"
        (HttpOutcome.got
          { statusCode := 200, text := "[1]", body := some (.jarr [.jnum 1]) })).2
      = Except.error attrGetErr := by
  rfl

/-- C8 (amended). Every outcome of the five operations poll status,
explore directory, directory sizes, start roast and poll roast —
transport failure, non-2xx, and 2xx with an invalid-JSON body included
— returns a tagged result without an uncaught exception; start
analysis does so for every outcome except a 2xx response whose body is
valid JSON but not an object, where response_data.get raises an
uncaught AttributeError. -/
theorem c8_api_results_tagged (logs : List RequestLogEntry) (ts : Nat)
    (repoUrl jobIdStr : String) (jid : JsonVal) (path : String) (p : RoastParams)
    (out : HttpOutcome) :
    exceptIsOk (check_repo_status logs ts jobIdStr out).2 = true
    ∧ exceptIsOk (explore_directory logs ts jid path out).2 = true
    ∧ exceptIsOk (get_directory_sizes logs ts jid path out).2 = true
    ∧ exceptIsOk (auto_roast_repository logs ts jid p out).2 = true
    ∧ exceptIsOk (check_roast_results logs ts jobIdStr out).2 = true
    ∧ (analyzeOutSafe out → exceptIsOk (analyze_repository logs ts repoUrl out).2 = true) :=
  ⟨(check_repo_status_spec logs ts jobIdStr out).2,
   (explore_directory_spec logs ts jid path out).2,
   (get_directory_sizes_spec logs ts jid path out).2,
   (auto_roast_repository_spec logs ts jid p out).2,
   (check_roast_results_spec logs ts jobIdStr out).2,
   (analyze_repository_spec logs ts repoUrl out).2⟩

theorem c8_api_results_tagged_witness :
    exceptIsOk (analyze_repository [] 0 "u" (HttpOutcome.exc "boom")).2 = true
    ∧ exceptIsOk (check_repo_status [] 0 "j" (HttpOutcome.exc "boom")).2 = true := by
  have h := c8_api_results_tagged [] 0 "u" "j" .jnull ""
    { style := "brutal", file_count := 2, extensions := none, directories := none,
      description := none, suggestions := "none" } (HttpOutcome.exc "boom")
  exact ⟨h.2.2.2.2.2 (fun r j hr => by cases hr), h.1⟩

lemma initialRetryGo_allfail (env : Nat → HttpOutcome) (expOut : HttpOutcome)
    (ts : Nat → Nat) :
    ∀ (f : Nat) (s : SessionState) (rc : Nat),
      (∀ i, rc < i → i ≤ max_retries → initAttemptSucceeds (env i) = false) →
      (initialRetryGo env expOut ts f s rc).state = s
      ∧ (initialRetryGo env expOut ts f s rc).events.countP isHttpGetEvt
          = min (max_retries - rc) f := by
  intro f
  induction f with
  | zero =>
    intro s rc _
    simp [initialRetryGo]
  | succ f ih =>
    intro s rc h
    by_cases hrc : rc < max_retries
    · have hfail := h (rc + 1) (by omega) (by omega)
      have hrec := ih s (rc + 1) (fun i h1 h2 => h i (by omega) h2)
      cases henv : env (rc + 1) with
      | exc m =>
        simp only [initialRetryGo, if_pos hrc, henv, prependInitEvents]
        refine ⟨hrec.1, ?_⟩
        simp only [List.countP_append, hrec.2, List.countP_cons, List.countP_nil,
          isHttpGetEvt]
        simp
        omega
      | got r =>
        rw [henv] at hfail
        by_cases hok : r.ok = true
        · cases hb : r.body with
          | some j =>
            cases j with
            | jobj fields =>
              rw [initAttemptSucceeds] at hfail
              rw [hok, hb] at hfail
              simp at hfail
            | jnull =>
              simp only [initialRetryGo, if_pos hrc, henv, hok, if_true, hb,
                prependInitEvents]
              refine ⟨hrec.1, ?_⟩
              simp only [List.countP_append, hrec.2, List.countP_cons, List.countP_nil,
                isHttpGetEvt]
              simp
              omega
            | jbool b =>
              simp only [initialRetryGo, if_pos hrc, henv, hok, if_true, hb,
                prependInitEvents]
              refine ⟨hrec.1, ?_⟩
              simp only [List.countP_append, hrec.2, List.countP_cons, List.countP_nil,
                isHttpGetEvt]
              simp
              omega
            | jnum n =>
              simp only [initialRetryGo, if_pos hrc, henv, hok, if_true, hb,
                prependInitEvents]
              refine ⟨hrec.1, ?_⟩
              simp only [List.countP_append, hrec.2, List.countP_cons, List.countP_nil,
                isHttpGetEvt]
              simp
              omega
            | jstr str =>
              simp only [initialRetryGo, if_pos hrc, henv, hok, if_true, hb,
                prependInitEvents]
              refine ⟨hrec.1, ?_⟩
              simp only [List.countP_append, hrec.2, List.countP_cons, List.countP_nil,
                isHttpGetEvt]
              simp
              omega
            | jarr elems =>
              simp only [initialRetryGo, if_pos hrc, henv, hok, if_true, hb,
                prependInitEvents]
              refine ⟨hrec.1, ?_⟩
              simp only [List.countP_append, hrec.2, List.countP_cons, List.countP_nil,
                isHttpGetEvt]
              simp
              omega
          | none =>
            simp only [initialRetryGo, if_pos hrc, henv, hok, if_true, hb,
              prependInitEvents]
            refine ⟨hrec.1, ?_⟩
            simp only [List.countP_append, hrec.2, List.countP_cons, List.countP_nil,
              isHttpGetEvt]
            simp
            omega
        · have hok2 : r.ok = false := by simpa using hok
          simp only [initialRetryGo, if_pos hrc, henv, hok2, if_false, Bool.false_eq_true,
            prependInitEvents]
          refine ⟨hrec.1, ?_⟩
          simp only [List.countP_append, hrec.2, List.countP_cons, List.countP_nil,
            isHttpGetEvt]
          simp
          omega
    · simp only [initialRetryGo, if_neg hrc]
      refine ⟨trivial, ?_⟩
      simp only [List.countP_nil]
      omega

/-- C7 counterexample: a full run of the initial status retry loop
issues four raw HTTP status requests yet appends nothing to the
request log — so not every remote HTTP call the client issues appends
a RequestLogEntry. -/
theorem c7_counterexample_initial_retry_unlogged :
    (initialRetryGo cFailEnv (HttpOutcome.exc "x") (fun _ => 0) (max_retries + 1)
        initSessionState 0).events.countP isHttpGetEvt = 4
    ∧ (initialRetryGo cFailEnv (HttpOutcome.exc "x") (fun _ => 0) (max_retries + 1)
        initSessionState 0).state.request_logs = [] := by
  constructor <;> rfl

/-- C7 (amended). Every call issued through the six API wrapper
functions appends exactly one RequestLogEntry (under the 20-entry
cap), for every outcome including failures; but the raw requests.get
calls of the post-submit initial retry loop bypass log_api_request:
a run whose attempts all fail issues max_retries HTTP requests and
leaves the request log unchanged. -/
theorem c7_every_wrapper_call_logs_once (logs : List RequestLogEntry) (ts : Nat)
    (repoUrl jobIdStr : String) (jid : JsonVal) (path : String) (p : RoastParams)
    (out : HttpOutcome) (env : Nat → HttpOutcome) (expOut : HttpOutcome)
    (tsf : Nat → Nat) (s : SessionState) :
    (∃ e, (analyze_repository logs ts repoUrl out).1 = appendLog logs e)
    ∧ (∃ e, (check_repo_status logs ts jobIdStr out).1 = appendLog logs e)
    ∧ (∃ e, (explore_directory logs ts jid path out).1 = appendLog logs e)
    ∧ (∃ e, (get_directory_sizes logs ts jid path out).1 = appendLog logs e)
    ∧ (∃ e, (auto_roast_repository logs ts jid p out).1 = appendLog logs e)
    ∧ (∃ e, (check_roast_results logs ts jobIdStr out).1 = appendLog logs e)
    ∧ ((∀ i, 0 < i → i ≤ max_retries → initAttemptSucceeds (env i) = false) →
        (initialRetryGo env expOut tsf (max_retries + 1) s 0).state.request_logs
            = s.request_logs
        ∧ (initialRetryGo env expOut tsf (max_retries + 1) s 0).events.countP isHttpGetEvt
            = max_retries) := by
  refine ⟨(analyze_repository_spec logs ts repoUrl out).1,
    (check_repo_status_spec logs ts jobIdStr out).1,
    (explore_directory_spec logs ts jid path out).1,
    (get_directory_sizes_spec logs ts jid path out).1,
    (auto_roast_repository_spec logs ts jid p out).1,
    (check_roast_results_spec logs ts jobIdStr out).1, ?_⟩
  intro hfail
  have h := initialRetryGo_allfail env expOut tsf (max_retries + 1) s 0 hfail
  refine ⟨by rw [h.1], ?_⟩
  rw [h.2]
  rfl

theorem c7_every_wrapper_call_logs_once_witness :
    (∃ e, (check_repo_status [] 0 "j" (HttpOutcome.exc "t")).1 = appendLog [] e)
    ∧ (initialRetryGo cFailEnv (HttpOutcome.exc "x") (fun _ => 0) (max_retries + 1)
        initSessionState 0).state.request_logs = initSessionState.request_logs := by
  have h := c7_every_wrapper_call_logs_once [] 0 "u" "j" .jnull ""
    { style := "brutal", file_count := 2, extensions := none, directories := none,
      description := none, suggestions := "none" }
    (HttpOutcome.exc "t") cFailEnv (HttpOutcome.exc "x") (fun _ => 0) initSessionState
  exact ⟨h.2.1, (h.2.2.2.2.2.2 (fun i _ _ => rfl)).1⟩

lemma exceptIsOk_ok {x : Except PyExc JsonVal} (h : exceptIsOk x = true) :
    ∃ v, x = Except.ok v := by
  cases x with
  | ok v => exact ⟨v, rfl⟩
  | error e => simp [exceptIsOk] at h

lemma prependEvents_state (evs : List UIEvent) (r : PollResult) :
    (prependEvents evs r).state = r.state := rfl

lemma prependEvents_count (evs : List UIEvent) (r : PollResult) :
    (prependEvents evs r).count = r.count := rfl

lemma prependEvents_exit (evs : List UIEvent) (r : PollResult) :
    (prependEvents evs r).exit = r.exit := rfl

lemma check_repo_status_exc (logs : List RequestLogEntry) (ts : Nat) (u m : String) :
    ∃ e, check_repo_status logs ts u (HttpOutcome.exc m)
      = (appendLog logs e, Except.ok (failedDict m)) := by
  simp only [check_repo_status, log_api_request]
  exact ⟨_, rfl⟩

lemma check_repo_status_got_ok (logs : List RequestLogEntry) (ts : Nat) (u : String)
    (r : HttpResp) (j : JsonVal) (hok : r.ok = true) (hb : r.body = some j) :
    ∃ e, check_repo_status logs ts u (HttpOutcome.got r)
      = (appendLog logs e, Except.ok j) := by
  simp only [check_repo_status, log_api_request, hok, hb, if_true]
  exact ⟨_, rfl⟩

lemma check_repo_status_got_bad (logs : List RequestLogEntry) (ts : Nat) (u : String)
    (r : HttpResp) (hok : r.ok = false) :
    ∃ e, check_repo_status logs ts u (HttpOutcome.got r)
      = (appendLog logs e,
         Except.ok (failedDict (toString r.statusCode ++ ": " ++ r.text))) := by
  simp only [check_repo_status, log_api_request, hok]
  simp only [Bool.false_eq_true, if_false]
  exact ⟨_, rfl⟩

lemma pollGo_terminal (env : Nat → HttpOutcome) (expOut : HttpOutcome) (ts : Nat → Nat)
    (f c : Nat) (s : SessionState)
    (h : s.repo_status.isStr "completed" = true ∨ s.repo_status.isStr "failed" = true
        ∨ max_polling_attempts ≤ c) :
    pollGo env expOut ts f s c = ⟨s, c, [], .finished⟩ := by
  cases f with
  | zero => rfl
  | succ f =>
    simp only [pollGo]
    rw [if_neg]
    rintro ⟨⟨h1, h2⟩, h3⟩
    rcases h with h | h | h
    · rw [h1] at h; exact Bool.false_ne_true h
    · rw [h2] at h; exact Bool.false_ne_true h
    · omega

lemma pollGo_step_obj (env : Nat → HttpOutcome) (expOut : HttpOutcome) (ts : Nat → Nat)
    (f c : Nat) (s : SessionState) (fields : List (String × JsonVal)) (v : String)
    (hst : s.repo_status = JsonVal.jstr "pending")
    (hc : c < max_polling_attempts)
    (hck : (check_repo_status s.request_logs (ts (c + 1)) s.job_id.pyStr (env (c + 1))).2
        = Except.ok (JsonVal.jobj fields))
    (hlook : fields.lookup "status" = some (JsonVal.jstr v))
    (hv : v ≠ "completed") :
    pollGo env expOut ts (f + 1) s c =
      prependEvents [.statusRequest s.job_id, .sleepSec 2]
        (pollGo env expOut ts f
          { s with
            request_logs :=
              (check_repo_status s.request_logs (ts (c + 1)) s.job_id.pyStr (env (c + 1))).1,
            repo_status := JsonVal.jstr v } (c + 1)) := by
  have hne : fields ≠ [] := by
    intro h
    rw [h] at hlook
    simp [List.lookup] at hlook
  have htr : (JsonVal.jobj fields).truthy = true := by
    simp [JsonVal.truthy, hne]
  have hget : (JsonVal.jobj fields).pyGetD "status" .jnull = Except.ok (JsonVal.jstr v) := by
    simp [JsonVal.pyGetD, hlook]
  have hnotc : (JsonVal.jstr v).isStr "completed" = false := by
    simp [JsonVal.isStr]
    exact hv
  simp only [pollGo]
  rw [if_pos ⟨⟨by rw [hst]; rfl, by rw [hst]; rfl⟩, hc⟩]
  simp only [hck, htr, if_true, hget, hnotc, Bool.false_eq_true, if_false]

lemma pollGo_step_completed (env : Nat → HttpOutcome) (expOut : HttpOutcome)
    (ts : Nat → Nat) (f c : Nat) (s : SessionState) (fields : List (String × JsonVal))
    (hst : s.repo_status = JsonVal.jstr "pending")
    (hc : c < max_polling_attempts)
    (hck : (check_repo_status s.request_logs (ts (c + 1)) s.job_id.pyStr (env (c + 1))).2
        = Except.ok (JsonVal.jobj fields))
    (hlook : fields.lookup "status" = some (JsonVal.jstr "completed")) :
    ∃ dv,
      (explore_directory
          (check_repo_status s.request_logs (ts (c + 1)) s.job_id.pyStr (env (c + 1))).1
          (ts (c + 1)) s.job_id "" expOut).2 = Except.ok dv
      ∧ pollGo env expOut ts (f + 1) s c =
        ⟨{ s with
            request_logs :=
              (explore_directory
                (check_repo_status s.request_logs (ts (c + 1)) s.job_id.pyStr (env (c + 1))).1
                (ts (c + 1)) s.job_id "" expOut).1,
            repo_status := JsonVal.jstr "completed", directory_contents := dv }, c + 1,
          [.statusRequest s.job_id, .exploreRequest s.job_id "", .rerunEvent], .rerunExit⟩ := by
  have hne : fields ≠ [] := by
    intro h
    rw [h] at hlook
    simp [List.lookup] at hlook
  have htr : (JsonVal.jobj fields).truthy = true := by
    simp [JsonVal.truthy, hne]
  have hget : (JsonVal.jobj fields).pyGetD "status" .jnull
      = Except.ok (JsonVal.jstr "completed") := by
    simp [JsonVal.pyGetD, hlook]
  obtain ⟨dv, hdv⟩ := exceptIsOk_ok
    (explore_directory_spec
      (check_repo_status s.request_logs (ts (c + 1)) s.job_id.pyStr (env (c + 1))).1
      (ts (c + 1)) s.job_id "" expOut).2
  refine ⟨dv, hdv, ?_⟩
  simp only [pollGo]
  rw [if_pos ⟨⟨by rw [hst]; rfl, by rw [hst]; rfl⟩, hc⟩]
  simp only [hck, htr, if_true, hget]
  have hisc : (JsonVal.jstr "completed").isStr "completed" = true := by
    simp [JsonVal.isStr]
  simp only [hisc, if_true, hdv]

lemma pollGo_pending_run (env : Nat → HttpOutcome) (expOut : HttpOutcome) (ts : Nat → Nat) :
    ∀ (k c f : Nat) (s : SessionState),
      s.repo_status = JsonVal.jstr "pending" →
      (∀ i, c < i → i ≤ c + k → statusOutcomeIs (env i) "pending") →
      c + k ≤ max_polling_attempts → k < f →
      ∃ s2, pollGo env expOut ts f s c =
          prependEvents (pendEvts s.job_id k) (pollGo env expOut ts (f - k) s2 (c + k))
        ∧ s2.repo_status = JsonVal.jstr "pending"
        ∧ s2.job_id = s.job_id
        ∧ s2.roast_status = s.roast_status
        ∧ s2.roast_results = s.roast_results
        ∧ s2.directory_contents = s.directory_contents := by
  intro k
  induction k with
  | zero =>
    intro c f s hst _ _ _
    refine ⟨s, ?_, hst, rfl, rfl, rfl, rfl⟩
    simp [pendEvts, prependEvents]
  | succ k ih =>
    intro c f s hst hp hle hf
    have hc : c < max_polling_attempts := by omega
    obtain ⟨f1, rfl⟩ : ∃ f1, f = f1 + 1 := ⟨f - 1, by omega⟩
    obtain ⟨r, fields, hgot, hok, hb, hlook⟩ := hp (c + 1) (by omega) (by omega)
    obtain ⟨e, hcke⟩ := check_repo_status_got_ok s.request_logs (ts (c + 1))
      s.job_id.pyStr r (JsonVal.jobj fields) hok hb
    have hck : (check_repo_status s.request_logs (ts (c + 1)) s.job_id.pyStr
        (env (c + 1))).2 = Except.ok (JsonVal.jobj fields) := by
      rw [hgot, hcke]
    have hstep := pollGo_step_obj env expOut ts f1 c s fields "pending" hst hc hck hlook
      (by decide)
    have ihh := ih (c + 1) f1
      { s with
        request_logs :=
          (check_repo_status s.request_logs (ts (c + 1)) s.job_id.pyStr (env (c + 1))).1,
        repo_status := JsonVal.jstr "pending" }
      rfl (fun i h1 h2 => hp i (by omega) (by omega)) (by omega) (by omega)
    obtain ⟨s2, heq, h1, h2, h3, h4, h5⟩ := ihh
    refine ⟨s2, ?_, h1, h2, h3, h4, h5⟩
    rw [hstep, heq]
    have ha : c + 1 + k = c + (k + 1) := by omega
    have hb2 : f1 - k = f1 + 1 - (k + 1) := by omega
    rw [ha, hb2]
    simp [prependEvents, pendEvts]

lemma pollLoop_all_pending (env : Nat → HttpOutcome) (expOut : HttpOutcome)
    (ts : Nat → Nat) (s : SessionState)
    (hst : s.repo_status = JsonVal.jstr "pending")
    (hp : ∀ i, 1 ≤ i → i ≤ max_polling_attempts → statusOutcomeIs (env i) "pending") :
    ∃ s2, pollLoop env expOut ts s
        = ⟨s2, max_polling_attempts, pendEvts s.job_id max_polling_attempts, .finished⟩
      ∧ s2.repo_status = JsonVal.jstr "pending" ∧ s2.job_id = s.job_id
      ∧ s2.roast_status = s.roast_status ∧ s2.roast_results = s.roast_results
      ∧ s2.directory_contents = s.directory_contents := by
  obtain ⟨s2, heq, h1, h2, h3, h4, h5⟩ := pollGo_pending_run env expOut ts
    max_polling_attempts 0 (max_polling_attempts + 1) s hst
    (fun i hi1 hi2 => hp i (by omega) (by omega)) (by omega) (by omega)
  refine ⟨s2, ?_, h1, h2, h3, h4, h5⟩
  simp only [pollLoop]
  rw [heq]
  rw [pollGo_terminal env expOut ts _ _ s2 (Or.inr (Or.inr (by omega)))]
  simp [prependEvents]

lemma pendingOutcome_status : statusOutcomeIs pendingOutcome "pending" :=
  ⟨_, _, rfl, rfl, rfl, rfl⟩

lemma completedOutcome_status : statusOutcomeIs completedOutcome "completed" :=
  ⟨_, _, rfl, rfl, rfl, rfl⟩

/-- C2 counterexample: with pending responses available at every
attempt, the polling loop runs its 30 attempts and stops with
repo_status still "pending" — the job never transitions to a Failed
state when the ceiling is exceeded (the code only shows a warning and
a retry button; repo_status is not set to "failed"). -/
theorem c2_counterexample_ceiling_leaves_pending :
    (pollLoop (fun _ => pendingOutcome) (HttpOutcome.exc "x") (fun i => i)
        cPendState).count = max_polling_attempts
    ∧ (pollLoop (fun _ => pendingOutcome) (HttpOutcome.exc "x") (fun i => i)
        cPendState).state.repo_status = JsonVal.jstr "pending"
    ∧ (pollLoop (fun _ => pendingOutcome) (HttpOutcome.exc "x") (fun i => i)
        cPendState).state.repo_status ≠ JsonVal.jstr "failed" := by
  obtain ⟨s2, heq, h1, _⟩ := pollLoop_all_pending (fun _ => pendingOutcome)
    (HttpOutcome.exc "x") (fun i => i) cPendState rfl (fun i _ _ => pendingOutcome_status)
  rw [heq]
  refine ⟨rfl, h1, ?_⟩
  rw [h1]
  intro hcontr
  injection hcontr with hs
  exact absurd hs (by decide)

/-- C2 (amended). For a sequence of pending responses the controller
stays polling and issues exactly one status request and one 2-second
sleep per attempt for 30 attempts; after the ceiling the loop ends
with repo_status still "pending" (not a Failed transition), the
max-attempts warning with a manual Retry button is offered, and a
rerun re-enters the loop with the attempt counter reset to zero (a
second full run performs 30 fresh attempts). -/
theorem c2_pending_ceiling_behavior (env : Nat → HttpOutcome) (expOut : HttpOutcome)
    (ts : Nat → Nat) (s : SessionState)
    (hst : s.repo_status = JsonVal.jstr "pending")
    (hp : ∀ i, 1 ≤ i → i ≤ max_polling_attempts → statusOutcomeIs (env i) "pending") :
    (pollLoop env expOut ts s).count = max_polling_attempts
    ∧ (pollLoop env expOut ts s).events = pendEvts s.job_id max_polling_attempts
    ∧ (pollLoop env expOut ts s).state.repo_status = JsonVal.jstr "pending"
    ∧ (pollLoop env expOut ts s).state.repo_status ≠ JsonVal.jstr "failed"
    ∧ (pollLoop env expOut ts s).exit = PollExit.finished
    ∧ postLoopRetryOffered (pollLoop env expOut ts s) = true
    ∧ (pollLoop env expOut ts (pollLoop env expOut ts s).state).count
        = max_polling_attempts := by
  obtain ⟨s2, heq, h1, h2, _⟩ := pollLoop_all_pending env expOut ts s hst hp
  obtain ⟨s3, heq2, _⟩ := pollLoop_all_pending env expOut ts s2 h1 hp
  rw [heq]
  refine ⟨rfl, rfl, h1, ?_, rfl, ?_, ?_⟩
  · rw [h1]
    intro hcontr
    injection hcontr with hs
    exact absurd hs (by decide)
  · simp only [postLoopRetryOffered]
    rw [h1]
    simp [JsonVal.isStr]
  · show (pollLoop env expOut ts s2).count = max_polling_attempts
    rw [heq2]

theorem c2_pending_ceiling_behavior_witness :
    (pollLoop (fun _ => pendingOutcome) (HttpOutcome.exc "x") (fun i => i)
        cPendState).count = max_polling_attempts
    ∧ postLoopRetryOffered (pollLoop (fun _ => pendingOutcome) (HttpOutcome.exc "x")
        (fun i => i) cPendState) = true := by
  have h := c2_pending_ceiling_behavior (fun _ => pendingOutcome) (HttpOutcome.exc "x")
    (fun i => i) cPendState rfl (fun i _ _ => pendingOutcome_status)
  exact ⟨h.1, h.2.2.2.2.2.1⟩

/-- C1 counterexample: a transport failure on the very first polling
attempt terminates the loop immediately in the Failed state — the
loop does not continue to the attempt ceiling, and no explicit server
"failed" status was received. -/
theorem c1_counterexample_transport_failure_terminal :
    (pollLoop cExcEnv (HttpOutcome.exc "x") (fun i => i) cPendState).count = 1
    ∧ 1 < max_polling_attempts
    ∧ (pollLoop cExcEnv (HttpOutcome.exc "x") (fun i => i) cPendState).state.repo_status
        = JsonVal.jstr "failed"
    ∧ (pollLoop cExcEnv (HttpOutcome.exc "x") (fun i => i) cPendState).exit
        = PollExit.finished := by
  refine ⟨rfl, by decide, rfl, rfl⟩

/-- C1 (amended). A status-check attempt that fails at transport level
or returns a non-2xx response is converted by check_repo_status into a
synthesized body with status "failed", which the polling loop treats
exactly like an explicit server "failed": the loop terminates in the
Failed state on that very attempt (after its 2-second sleep), at any
attempt count, and a subsequent run of the loop performs no further
attempts. -/
theorem c1_poll_failure_not_transient (env : Nat → HttpOutcome) (expOut : HttpOutcome)
    (ts : Nat → Nat) (s : SessionState) (k : Nat)
    (hst : s.repo_status = JsonVal.jstr "pending")
    (hp : ∀ i, 1 ≤ i → i < k → statusOutcomeIs (env i) "pending")
    (hf : (∃ m, env k = HttpOutcome.exc m)
        ∨ (∃ r, env k = HttpOutcome.got r ∧ r.ok = false))
    (hk1 : 1 ≤ k) (hk30 : k ≤ max_polling_attempts) :
    (pollLoop env expOut ts s).count = k
    ∧ (pollLoop env expOut ts s).state.repo_status = JsonVal.jstr "failed"
    ∧ (pollLoop env expOut ts s).exit = PollExit.finished
    ∧ (pollLoop env expOut ts (pollLoop env expOut ts s).state).count = 0 := by
  obtain ⟨j, rfl⟩ : ∃ j, k = j + 1 := ⟨k - 1, by omega⟩
  obtain ⟨s2, heq, h1, h2, _⟩ := pollGo_pending_run env expOut ts j 0
    (max_polling_attempts + 1) s hst
    (fun i hi1 hi2 => hp i (by omega) (by omega)) (by omega) (by omega)
  simp only [Nat.zero_add] at heq
  obtain ⟨g, hg⟩ : ∃ g, max_polling_attempts + 1 - j = g + 1 :=
    ⟨max_polling_attempts - j, by omega⟩
  rw [hg] at heq
  have hck : ∃ msg, (check_repo_status s2.request_logs (ts (j + 1)) s2.job_id.pyStr
      (env (j + 1))).2 = Except.ok (failedDict msg) := by
    rcases hf with ⟨m, hm⟩ | ⟨r, hr, hok⟩
    · obtain ⟨e, he⟩ := check_repo_status_exc s2.request_logs (ts (j + 1))
        s2.job_id.pyStr m
      exact ⟨m, by rw [hm, he]⟩
    · obtain ⟨e, he⟩ := check_repo_status_got_bad s2.request_logs (ts (j + 1))
        s2.job_id.pyStr r hok
      exact ⟨toString r.statusCode ++ ": " ++ r.text, by rw [hr, he]⟩
  obtain ⟨msg, hckm⟩ := hck
  have hstep := pollGo_step_obj env expOut ts g j s2
    [("status", JsonVal.jstr "failed"), ("error", JsonVal.jstr msg)] "failed"
    h1 (by omega) (by rw [hckm]; rfl) rfl (by decide)
  have hterm := pollGo_terminal env expOut ts g (j + 1)
    { s2 with
      request_logs :=
        (check_repo_status s2.request_logs (ts (j + 1)) s2.job_id.pyStr (env (j + 1))).1,
      repo_status := JsonVal.jstr "failed" }
    (Or.inr (Or.inl rfl))
  rw [hterm] at hstep
  have hloop : pollLoop env expOut ts s =
      prependEvents (pendEvts s.job_id j)
        (prependEvents [.statusRequest s2.job_id, .sleepSec 2]
          ⟨{ s2 with
              request_logs :=
                (check_repo_status s2.request_logs (ts (j + 1)) s2.job_id.pyStr
                  (env (j + 1))).1,
              repo_status := JsonVal.jstr "failed" }, j + 1, [], .finished⟩) := by
    simp only [pollLoop]
    rw [heq, hstep]
  rw [hloop]
  refine ⟨rfl, rfl, rfl, ?_⟩
  have hterm2 := pollGo_terminal env expOut ts (max_polling_attempts + 1) 0
    { s2 with
      request_logs :=
        (check_repo_status s2.request_logs (ts (j + 1)) s2.job_id.pyStr (env (j + 1))).1,
      repo_status := JsonVal.jstr "failed" }
    (Or.inr (Or.inl rfl))
  show (pollLoop env expOut ts
      { s2 with
        request_logs :=
          (check_repo_status s2.request_logs (ts (j + 1)) s2.job_id.pyStr (env (j + 1))).1,
        repo_status := JsonVal.jstr "failed" }).count = 0
  simp only [pollLoop]
  rw [hterm2]

theorem c1_poll_failure_not_transient_witness :
    (pollLoop cExcEnv (HttpOutcome.exc "x") (fun i => i) cPendState).state.repo_status
        = JsonVal.jstr "failed"
    ∧ (pollLoop cExcEnv (HttpOutcome.exc "x") (fun i => i) cPendState).count = 1 := by
  have h := c1_poll_failure_not_transient cExcEnv (HttpOutcome.exc "x") (fun i => i)
    cPendState 1 rfl (fun i h1 h2 => absurd h1 (by omega))
    (Or.inl ⟨"timeout", rfl⟩) (by omega) (by norm_num [max_polling_attempts])
  exact ⟨h.2.1, h.1⟩

lemma pendEvts_countP_explore (jid : JsonVal) :
    ∀ k, (pendEvts jid k).countP isExploreEvt = 0 := by
  intro k
  induction k with
  | zero => rfl
  | succ k ih => simp [pendEvts, List.countP_cons, isExploreEvt, ih]

/-- C3. A status response whose body carries status "completed",
arriving at any attempt count k of the polling loop, makes the loop
store status "completed" (Ready), issue exactly one automatic
explore_directory request — with the store's current job id and path
"" — and end the script run via st.rerun so the views render from the
new state; the same single root fetch happens when the first attempt
of the post-submit initial retry loop gets an ok JSON-object
response. -/
theorem c3_completed_triggers_single_explore (env : Nat → HttpOutcome)
    (expOut : HttpOutcome) (ts : Nat → Nat) (s : SessionState) (k : Nat)
    (hst : s.repo_status = JsonVal.jstr "pending")
    (hp : ∀ i, 1 ≤ i → i < k → statusOutcomeIs (env i) "pending")
    (hcomp : statusOutcomeIs (env k) "completed")
    (hk1 : 1 ≤ k) (hk30 : k ≤ max_polling_attempts) :
    (pollLoop env expOut ts s).state.repo_status = JsonVal.jstr "completed"
    ∧ (pollLoop env expOut ts s).count = k
    ∧ (pollLoop env expOut ts s).exit = PollExit.rerunExit
    ∧ (pollLoop env expOut ts s).events
        = pendEvts s.job_id (k - 1)
          ++ [.statusRequest s.job_id, .exploreRequest s.job_id "", .rerunEvent]
    ∧ (pollLoop env expOut ts s).events.countP isExploreEvt = 1
    ∧ (∀ (initEnv : Nat → HttpOutcome) (r : HttpResp) (fields : List (String × JsonVal)),
        initEnv 1 = HttpOutcome.got r → r.ok = true →
        r.body = some (JsonVal.jobj fields) →
        (initialRetryGo initEnv expOut ts (max_retries + 1) s 0).events
            = [.httpStatusGet s.job_id, .exploreRequest s.job_id "", .rerunEvent]
          ∧ (initialRetryGo initEnv expOut ts (max_retries + 1) s 0).state.repo_status
              = (fields.lookup "status").getD (JsonVal.jstr "pending")
          ∧ (initialRetryGo initEnv expOut ts (max_retries + 1) s 0).reran = true) := by
  obtain ⟨j, rfl⟩ : ∃ j, k = j + 1 := ⟨k - 1, by omega⟩
  obtain ⟨s2, heq, h1, h2, _⟩ := pollGo_pending_run env expOut ts j 0
    (max_polling_attempts + 1) s hst
    (fun i hi1 hi2 => hp i (by omega) (by omega)) (by omega) (by omega)
  simp only [Nat.zero_add] at heq
  obtain ⟨g, hg⟩ : ∃ g, max_polling_attempts + 1 - j = g + 1 :=
    ⟨max_polling_attempts - j, by omega⟩
  rw [hg] at heq
  obtain ⟨r, fields, hgot, hok, hb, hlook⟩ := hcomp
  obtain ⟨e, hcke⟩ := check_repo_status_got_ok s2.request_logs (ts (j + 1))
    s2.job_id.pyStr r (JsonVal.jobj fields) hok hb
  have hck : (check_repo_status s2.request_logs (ts (j + 1)) s2.job_id.pyStr
      (env (j + 1))).2 = Except.ok (JsonVal.jobj fields) := by
    rw [hgot, hcke]
  obtain ⟨dv, _, hstep⟩ := pollGo_step_completed env expOut ts g j s2 fields
    h1 (by omega) hck hlook
  have hloop : pollLoop env expOut ts s =
      prependEvents (pendEvts s.job_id j)
        ⟨{ s2 with
            request_logs :=
              (explore_directory
                (check_repo_status s2.request_logs (ts (j + 1)) s2.job_id.pyStr
                  (env (j + 1))).1
                (ts (j + 1)) s2.job_id "" expOut).1,
            repo_status := JsonVal.jstr "completed", directory_contents := dv }, j + 1,
          [.statusRequest s2.job_id, .exploreRequest s2.job_id "", .rerunEvent],
          .rerunExit⟩ := by
    simp only [pollLoop]
    rw [heq, hstep]
  rw [hloop]
  refine ⟨rfl, rfl, rfl, ?_, ?_, ?_⟩
  · simp only [prependEvents, Nat.add_sub_cancel, h2]
  · simp [prependEvents, List.countP_append, pendEvts_countP_explore,
      List.countP_cons, isExploreEvt]
  · intro initEnv r2 fields2 hh1 hh2 hh3
    simp only [initialRetryGo]
    rw [if_pos (show (0 : Nat) < max_retries by norm_num [max_retries])]
    simp only [Nat.zero_add, hh1, hh2, if_true, hh3]
    exact ⟨trivial, trivial, trivial⟩

theorem c3_completed_triggers_single_explore_witness :
    (pollLoop cCompEnv (HttpOutcome.exc "x") (fun i => i) cPendState).state.repo_status
        = JsonVal.jstr "completed"
    ∧ (pollLoop cCompEnv (HttpOutcome.exc "x") (fun i => i) cPendState).events.countP
        isExploreEvt = 1
    ∧ (pollLoop cCompEnv (HttpOutcome.exc "x") (fun i => i) cPendState).count = 3 := by
  have h := c3_completed_triggers_single_explore cCompEnv (HttpOutcome.exc "x")
    (fun i => i) cPendState 3 rfl
    (fun i h1 h2 => by
      have hi : i = 1 ∨ i = 2 := by omega
      rcases hi with rfl | rfl
      · exact pendingOutcome_status
      · exact pendingOutcome_status)
    completedOutcome_status (by omega) (by norm_num [max_polling_attempts])
  exact ⟨h.1, h.2.2.2.2.1, h.2.1⟩

lemma pollGo_state_job_id (env : Nat → HttpOutcome) (expOut : HttpOutcome)
    (ts : Nat → Nat) :
    ∀ (f : Nat) (s : SessionState) (c : Nat),
      (pollGo env expOut ts f s c).state.job_id = s.job_id := by
  intro f
  induction f with
  | zero => intro s c; rfl
  | succ f ih =>
    intro s c
    simp only [pollGo]
    split
    · repeat' split
      all_goals first | rfl | exact ih _ _
    · rfl

/-- C5 counterexample: processing a status response that belongs to
job A while the store's current job is B is not a no-op — the store's
repo_status is overwritten from the stale response's body, because the
code compares no job identifiers. -/
theorem c5_counterexample_stale_response_mutates :
    processStatusResponse c5State c5Resp
        = Except.ok { c5State with repo_status := JsonVal.jstr "completed" }
    ∧ ({ c5State with repo_status := JsonVal.jstr "completed" } : SessionState).repo_status
        ≠ c5State.repo_status := by
  refine ⟨rfl, ?_⟩
  intro h
  injection h with hs
  exact absurd hs (by decide)

/-- C5 (amended). The client has no stale-response guard: applying a
status response to the store reads only the response body and ignores
entirely which job the response belongs to. Cross-job staleness
nevertheless cannot arise inside one polling run, because the loop is
synchronous: the store's job identifier never changes during the loop,
so every response is processed against the same job that issued it. -/
theorem c5_stale_responses_not_discarded :
    (∀ (s : SessionState) (b jA jB : JsonVal),
        processStatusResponse s { forJob := jA, body := b }
          = processStatusResponse s { forJob := jB, body := b })
    ∧ (∀ (env : Nat → HttpOutcome) (expOut : HttpOutcome) (ts : Nat → Nat)
        (f : Nat) (s : SessionState) (c : Nat),
        (pollGo env expOut ts f s c).state.job_id = s.job_id) :=
  ⟨fun _ _ _ _ => rfl,
   fun env expOut ts f s c => pollGo_state_job_id env expOut ts f s c⟩

lemma initialRetryGo_roast_fields (env : Nat → HttpOutcome) (expOut : HttpOutcome)
    (ts : Nat → Nat) :
    ∀ (f : Nat) (s : SessionState) (rc : Nat),
      (initialRetryGo env expOut ts f s rc).state.roast_status = s.roast_status
      ∧ (initialRetryGo env expOut ts f s rc).state.roast_results = s.roast_results := by
  intro f
  induction f with
  | zero => intro s rc; exact ⟨rfl, rfl⟩
  | succ f ih =>
    intro s rc
    simp only [initialRetryGo]
    split
    · repeat' split
      all_goals first | exact ⟨rfl, rfl⟩ | exact ih _ _
    · exact ⟨rfl, rfl⟩

/-- C4 (amended). Submitting a new analysis never clears the roast
state: for every prior session state and every outcome of the start
call and of the initial status checks, the Analyze handler leaves
roast_status and roast_results exactly as they were (and the directory
snapshot is replaced only by a successful initial status check, not by
the submission itself; the directory-size report is not part of the
session state at all). -/
theorem c4_new_submission_keeps_roast_state (repoUrl : String) (startOut : HttpOutcome)
    (initEnv : Nat → HttpOutcome) (expOut : HttpOutcome) (ts : Nat → Nat)
    (s : SessionState) :
    (analyzeHandler repoUrl startOut initEnv expOut ts s).1.roast_status = s.roast_status
    ∧ (analyzeHandler repoUrl startOut initEnv expOut ts s).1.roast_results
        = s.roast_results := by
  simp only [analyzeHandler]
  split
  · split
    · exact ⟨rfl, rfl⟩
    · split
      · exact initialRetryGo_roast_fields initEnv expOut ts (max_retries + 1) _ 0
      · exact ⟨rfl, rfl⟩
  · exact ⟨rfl, rfl⟩

/-- C4 counterexample: submitting a new analysis for job B over a
prior session holding job A's data does not reset the roast state or
the directory snapshot: the old roast status, roast results and
directory contents are all still present afterwards (here the initial
status checks fail, as they may). -/
theorem c4_counterexample_stale_data_survives :
    (analyzeHandler "https://github.com/acme/widgets" c4StartOut cFailEnv
        (HttpOutcome.exc "x") (fun i => i) c4Prior).1.roast_results
        = JsonVal.jobj [("summary", .jstr "old roast")]
    ∧ (analyzeHandler "https://github.com/acme/widgets" c4StartOut cFailEnv
        (HttpOutcome.exc "x") (fun i => i) c4Prior).1.roast_status
        = JsonVal.jstr "completed"
    ∧ (analyzeHandler "https://github.com/acme/widgets" c4StartOut cFailEnv
        (HttpOutcome.exc "x") (fun i => i) c4Prior).1.directory_contents
        = JsonVal.jobj [("files", .jarr [])]
    ∧ (analyzeHandler "https://github.com/acme/widgets" c4StartOut cFailEnv
        (HttpOutcome.exc "x") (fun i => i) c4Prior).1.job_id = JsonVal.jstr "B" := by
  exact ⟨rfl, rfl, rfl, rfl⟩
